import Mathlib

/- Verification development for the Case_Canopy retrieval-augmented legal
assistant.  The complaint template and the saved-cases page are transcribed
from the sources `ai_agent/templates/complaint_template.txt` and
`frontend/src/app/saved/page.tsx`.  The retrieval / context-assembly /
prompt / generation / query-state pipeline lives in repository directories
(`RAG/`, `agentic-ai/`) whose code is not among the sources here, so those
components are modelled from the specification; each such definition says so
in its doc comment. -/

/-! ## Data model -/

/-- Modelled from the spec: `RetrievedPassage` of §3 — the `RAG/` retrieval
code is not among the sources.  The relevance score is kept as an integer so
that equality stays decidable; no verified claim depends on score
arithmetic. -/
structure RetrievedPassage where
  sourceId : String
  text : String
  score : Int
  rank : Nat
deriving DecidableEq

/-- Modelled from the spec: `Answer` of §3 (generation latency and model
identifier are omitted — no claim mentions them).  `noSources` is the
"no sources" flag of §4.1. -/
structure Answer where
  text : String
  sources : List String
  noSources : Bool
deriving DecidableEq

/-! ## Query State Store -/

/-- Modelled from the spec: the single slot of the Query State Store (§4.5)
— the store implementation is not among the sources.  `none` is the explicit
empty sentinel at process start. -/
abbrev StoreState := Option (String × Answer)

/-- Modelled from the spec: the store state at process start (§4.5). -/
def initStore : StoreState := none

/-- Modelled from the spec: `Query State Store.save` (§4.5); overwrites the
single slot, last write wins. -/
def saveQuery (q : String) (a : Answer) (_st : StoreState) : StoreState :=
  some (q, a)

/-- Modelled from the spec: `Query State Store.load_last` (§4.5); returns
the most recent pair or the `none` sentinel. -/
def loadLast (st : StoreState) : Option (String × Answer) := st

/-! ## Context Assembler -/

/-- Modelled from the spec: `AssembledContext` of §3 — an ordered sequence
of passages subject to the budget. -/
structure AssembledContext where
  passages : List RetrievedPassage
deriving DecidableEq

/-- Truncation of a string to its first `n` characters. -/
def strTake (s : String) (n : Nat) : String := ⟨s.data.take n⟩

/-- Walk of the deduplication pass: drop a passage whose source id is in
`seen`, otherwise keep it and record its source id. -/
def dedupeGo (seen : List String) :
    List RetrievedPassage → List RetrievedPassage
  | [] => []
  | p :: ps =>
      if p.sourceId ∈ seen then dedupeGo seen ps
      else p :: dedupeGo (p.sourceId :: seen) ps

/-- Modelled from the spec: the deduplication pass of §4.2 — passages whose
source id was already seen are collapsed to the first occurrence, the order
of the survivors unchanged; the assembler code is not among the sources. -/
def dedupeBySource (l : List RetrievedPassage) : List RetrievedPassage :=
  dedupeGo [] l

/-- Modelled from the spec: the budget walk of §4.2 — each passage is
included in full while it fits the remaining budget; the first passage that
does not fit is truncated to the remaining budget and the walk stops. -/
def budgetWalk : List RetrievedPassage → Nat → List RetrievedPassage
  | [], _ => []
  | p :: ps, rem =>
      if p.text.length ≤ rem then p :: budgetWalk ps (rem - p.text.length)
      else [{ p with text := strTake p.text rem }]

/-- Modelled from the spec: `Context Assembler.assemble` (§4.2). -/
def assemble (passages : List RetrievedPassage) (budget : Nat) :
    AssembledContext :=
  ⟨budgetWalk (dedupeBySource passages) budget⟩

/-- Total character length of an assembled context. -/
def totalLen (ctx : AssembledContext) : Nat :=
  (ctx.passages.map (fun p => p.text.length)).sum

/-- `out` is a prefix-consistent truncation of `inp`: either a plain prefix
of `inp`, or a prefix of `inp` whose last element was replaced by a copy
carrying a character-prefix of its text, all other fields equal. -/
def IsTruncationOf (out inp : List RetrievedPassage) : Prop :=
  out = inp.take out.length
  ∨ ∃ pre a b, out = pre ++ [a] ∧ inp.take out.length = pre ++ [b]
      ∧ a.sourceId = b.sourceId ∧ a.score = b.score ∧ a.rank = b.rank
      ∧ a.text.data <+: b.text.data

/-! ## Prompt Orchestrator -/

/-- Modelled from the spec: the construction-time error of §4.3. -/
inductive PromptError
  | promptTooLarge
deriving DecidableEq

/-- Modelled from the spec: `GenerationRequest` of §3, together with the
prompt string built by §4.3. -/
structure GenerationRequest where
  query : String
  context : AssembledContext
  priorAnswer : Option String
  prompt : String
deriving DecidableEq

/-- Modelled from the spec: the fixed instruction preamble of §4.3. -/
def instructionsText : String :=
  "You are a legal assistant. Answer the question using the retrieved passages when they are given.\n\n"

/-- Newline join of list entries, one entry per line, with the separator
between consecutive entries (the semantics of Jinja2 `join('\n')` used by
the complaint template). -/
def joinNl : List String → String
  | [] => ""
  | [v] => v
  | v :: vs => v ++ "\n" ++ joinNl vs

/-- Modelled from the spec: the context section of §4.3, omitted entirely
when the assembled context is empty. -/
def contextSection (ctx : AssembledContext) : String :=
  if ctx.passages.isEmpty then ""
  else "Context:\n" ++ joinNl (ctx.passages.map (fun p => p.text)) ++ "\n\n"

/-- Modelled from the spec: the fixed query header of §4.3. -/
def questionHeader : String := "Question: "

/-- Modelled from the spec: the short continuation directive of §4.3,
present only for a follow-up carrying a prior answer. -/
def continuationDirective : Option String → String
  | none => ""
  | some a => "\n\nPrior answer:\n" ++ a ++ "\nContinue the prior answer."

/-- Modelled from the spec: the deterministic prompt construction of §4.3 —
instructions, then the context section (if non-empty), then the query, then
the continuation directive; the orchestrator code is not among the
sources. -/
def promptText (query : String) (ctx : AssembledContext)
    (prior : Option String) : String :=
  instructionsText
    ++ (contextSection ctx
      ++ (questionHeader ++ (query ++ continuationDirective prior)))

/-- Modelled from the spec: the configured absolute prompt ceiling of
§4.3. -/
def maxPromptSize : Nat := 8000

/-- Modelled from the spec: `Prompt Orchestrator.build_prompt` (§4.3).  The
query is embedded verbatim and never truncated; a prompt that would exceed
the ceiling fails with `PromptTooLarge` instead. -/
def buildPrompt (query : String) (ctx : AssembledContext)
    (prior : Option String) : Except PromptError GenerationRequest :=
  if (promptText query ctx prior).length ≤ maxPromptSize then
    Except.ok ⟨query, ctx, prior, promptText query ctx prior⟩
  else Except.error PromptError.promptTooLarge

/-- Substring test: does `pat` occur contiguously inside `s`? -/
def containsSubstring (pat s : String) : Bool :=
  s.data.tails.any (fun t => pat.data.isPrefixOf t)

/-! ## Generation Executor -/

/-- Modelled from the spec: the possible outcomes of one call to the
external generation capability (§4.4); a timeout counts as a transient
failure. -/
inductive AttemptResult
  | success (text : String)
  | transientFailure (cause : String)
  | fatalFailure (cause : String)
deriving DecidableEq

/-- Modelled from the spec: executor errors of §4.4 and §7. -/
inductive ExecError
  | generationUnavailable (lastCause : String)
  | fatalError (cause : String)
deriving DecidableEq

/-- Modelled from the spec: the bounded retry loop of
`Generation Executor.generate` (§4.4) — the executor code is not among the
sources.  `oracle i` is the outcome of attempt number `i`; transient
failures are retried while attempts remain and the last transient cause is
carried by `GenerationUnavailable`; fatal failures are not retried. -/
def runAttempts (oracle : Nat → AttemptResult) :
    Nat → Nat → Except ExecError String
  | _, 0 => Except.error (ExecError.generationUnavailable "no attempts made")
  | i, fuel + 1 =>
    match oracle i with
    | AttemptResult.success t => Except.ok t
    | AttemptResult.fatalFailure c => Except.error (ExecError.fatalError c)
    | AttemptResult.transientFailure c =>
      if fuel = 0 then Except.error (ExecError.generationUnavailable c)
      else runAttempts oracle (i + 1) fuel

/-- Modelled from the spec: one generation call followed by the save step
(§5, §7) — on success the answer (citing the context's source ids, flagged
when it has no sources) is saved into the store's single slot; on failure
the store is left exactly as it was. -/
def runGeneration (st : StoreState) (oracle : Nat → AttemptResult)
    (n : Nat) (q : String) (ctx : AssembledContext) :
    Except ExecError Answer × StoreState :=
  match runAttempts oracle 0 n with
  | Except.ok t =>
    let ans : Answer :=
      { text := t, sources := ctx.passages.map (fun p => p.sourceId),
        noSources := ctx.passages.isEmpty }
    (Except.ok ans, saveQuery q ans st)
  | Except.error e => (Except.error e, st)

/-! ## Retrieval Gateway and pipeline -/

/-- Modelled from the spec: the reply of the external vector index (§6) —
either a transport error or a ranked result list. -/
inductive IndexReply
  | transportError (msg : String)
  | results (passages : List RetrievedPassage)

/-- Modelled from the spec: the error taxonomy of §7 at pipeline level. -/
inductive PipelineError
  | invalidQuery
  | promptTooLarge
  | generationUnavailable (lastCause : String)
  | fatalError (cause : String)
deriving DecidableEq

/-- Modelled from the spec: query normalization (§4.1), trimming surrounding
whitespace (written on the character list so that it evaluates by
structural recursion). -/
def normalizeQuery (q : String) : String :=
  ⟨((q.data.dropWhile Char.isWhitespace).reverse.dropWhile
      Char.isWhitespace).reverse⟩

/-- Modelled from the spec: `Retrieval Gateway.retrieve` (§4.1) — the
gateway code is not among the sources.  An empty normalized query is
`InvalidQuery`; a transport error or an empty index degrades to the empty
sequence instead of failing; otherwise the top `k` passages are returned in
index order. -/
def retrieve (queryText : String) (k : Nat) (reply : IndexReply) :
    Except PipelineError (List RetrievedPassage) :=
  if (normalizeQuery queryText).isEmpty then
    Except.error PipelineError.invalidQuery
  else
    match reply with
    | IndexReply.transportError _ => Except.ok []
    | IndexReply.results ps => Except.ok (ps.take k)

/-- Lift of executor errors into the pipeline error taxonomy. -/
def liftExecError : ExecError → PipelineError
  | ExecError.generationUnavailable c => PipelineError.generationUnavailable c
  | ExecError.fatalError c => PipelineError.fatalError c

/-- Modelled from the spec: the control flow of §2 — retrieval, assembly,
prompt construction, generation, save — where retrieval degradation yields
an empty context and a failed generation leaves the store untouched. -/
def runPipeline (q : String) (k budget : Nat) (reply : IndexReply)
    (oracle : Nat → AttemptResult) (n : Nat) (prior : Option String)
    (st : StoreState) : Except PipelineError Answer × StoreState :=
  match retrieve q k reply with
  | Except.error e => (Except.error e, st)
  | Except.ok passages =>
    let ctx := assemble passages budget
    match buildPrompt q ctx prior with
    | Except.error _ => (Except.error PipelineError.promptTooLarge, st)
    | Except.ok _req =>
      match runGeneration st oracle n q ctx with
      | (Except.ok ans, st') => (Except.ok ans, st')
      | (Except.error e, st') => (Except.error (liftExecError e), st')

/-! ## Document Template Renderer -/

/-- A document field value (§3, `DocumentField`): a scalar string or an
ordered sequence of strings. -/
inductive FieldVal
  | str (s : String)
  | list (l : List String)
deriving DecidableEq

/-- A field mapping from placeholder names to values. -/
abbrev Fields := List (String × FieldVal)

/-- Lookup of a scalar field by exact, case-sensitive placeholder name. -/
def lookupScalar (fields : Fields) (n : String) : Option String :=
  match fields.find? (fun f => f.1 == n) with
  | some (_, FieldVal.str s) => some s
  | _ => none

/-- Lookup of a list field; an absent optional list field is the empty
list, rendered as an empty section. -/
def lookupList (fields : Fields) (n : String) : List String :=
  match fields.find? (fun f => f.1 == n) with
  | some (_, FieldVal.list l) => l
  | _ => []

/-- One fragment of a template blueprint (§6 template format): literal
text, a scalar placeholder, or a list placeholder whose entries are joined
with newlines. -/
inductive Piece
  | lit (s : String)
  | scalar (n : String)
  | listF (n : String)
deriving DecidableEq

/-- A template blueprint is its ordered fragment list. -/
structure Template where
  pieces : List Piece
deriving DecidableEq

/-- Scalar placeholder names of a template in template order — these are
its required fields (§4.6; list placeholders are the optional ones). -/
def requiredScalars (t : Template) : List String :=
  t.pieces.filterMap (fun pc =>
    match pc with
    | Piece.scalar n => some n
    | _ => none)

/-- Rendering of one fragment against a field mapping; a list placeholder
is the newline join of the caller-supplied entries, verbatim and in
order. -/
def renderPiece (fields : Fields) : Piece → String
  | Piece.lit s => s
  | Piece.scalar n => (lookupScalar fields n).getD ""
  | Piece.listF n => joinNl (lookupList fields n)

/-- Concatenation of the rendered fragments, expressed on character lists
so that proofs can reason with list appends. -/
def renderPieces (fields : Fields) (t : Template) : String :=
  ⟨(t.pieces.map (fun pc => (renderPiece fields pc).data)).flatten⟩

/-- Rendering errors of §7 (`UnknownTemplate` cannot arise here because the
template kind is an enumerated type). -/
inductive RenderError
  | missingField (name : String)
  | unknownTemplate (name : String)
deriving DecidableEq

/-- The fixed enumerated set of template kinds (§4.6). -/
inductive TemplateKind
  | complaint
  | petition
  | rti
deriving DecidableEq

/-- The complaint blueprint, transcribed fragment by fragment from
`ai_agent/templates/complaint_template.txt` (Jinja2 placeholders become
`scalar` pieces and the two `join('\n')` constructs become `listF`
pieces). -/
def complaintTemplate : Template :=
  ⟨[Piece.lit "To,\n",
    Piece.scalar "authority_designation", Piece.lit "\n",
    Piece.scalar "authority_name", Piece.lit "\n",
    Piece.scalar "authority_address", Piece.lit "\n\nSubject: ",
    Piece.scalar "complaint_subject",
    Piece.lit "\n\nRespected Sir/Madam,\n\nI, ",
    Piece.scalar "user_name", Piece.lit ", resident of ",
    Piece.scalar "location",
    Piece.lit ", wish to file a formal complaint against ",
    Piece.scalar "respondent_name",
    Piece.lit " regarding the following matter:\n\nFACTS OF THE CASE:\n\n",
    Piece.scalar "issue_summary", Piece.lit "\n\nLEGAL BASIS:\n\n",
    Piece.scalar "legal_insights",
    Piece.lit "\n\nPRAYERS:\n\nIn light of the above, I most respectfully pray that:\n\n",
    Piece.listF "prayers",
    Piece.lit "\n\nDOCUMENTS ENCLOSED:\n",
    Piece.listF "documents",
    Piece.lit "\n\nI hereby declare that the information provided above is true to the best of my knowledge and belief.\n\nDate: ",
    Piece.scalar "date", Piece.lit "\nPlace: ",
    Piece.scalar "location", Piece.lit "\n\nYours faithfully,\n",
    Piece.scalar "user_name", Piece.lit "\n",
    Piece.scalar "contact_details"]⟩

/-- Modelled from the spec: the petition blueprint — only the complaint
blueprint file is among the sources; §4.6 names petition as another member
of the fixed set, so a minimal blueprint of the same shape stands in. -/
def petitionTemplate : Template :=
  ⟨[Piece.lit "PETITION\n\nTo,\n", Piece.scalar "authority_name",
    Piece.lit "\n\nPetitioner: ", Piece.scalar "user_name",
    Piece.lit "\n\n", Piece.scalar "petition_body",
    Piece.lit "\n\nPRAYERS:\n\n", Piece.listF "prayers",
    Piece.lit "\n\nDate: ", Piece.scalar "date"]⟩

/-- Modelled from the spec: the RTI blueprint — only the complaint
blueprint file is among the sources; §4.6 names RTI as another member of
the fixed set. -/
def rtiTemplate : Template :=
  ⟨[Piece.lit "RTI APPLICATION\n\nTo,\n", Piece.scalar "authority_name",
    Piece.lit "\n\nApplicant: ", Piece.scalar "user_name",
    Piece.lit "\n\nInformation sought:\n\n", Piece.listF "questions",
    Piece.lit "\n\nDate: ", Piece.scalar "date"]⟩

/-- The blueprint of each template kind. -/
def templateOf : TemplateKind → Template
  | TemplateKind.complaint => complaintTemplate
  | TemplateKind.petition => petitionTemplate
  | TemplateKind.rti => rtiTemplate

/-- Modelled from the spec: `Document Template Renderer.render` (§4.6) —
the rendering engine (Jinja2-driven, in `agentic-ai/`) is not among the
sources, while the complaint blueprint content is.  The field mapping is
validated against the template's required scalar names before any
substitution (§9); the first missing required scalar fails with
`MissingField` naming it, and only a fully validated mapping is
substituted. -/
def render (kind : TemplateKind) (fields : Fields) :
    Except RenderError String :=
  match (requiredScalars (templateOf kind)).find?
      (fun n => (lookupScalar fields n).isNone) with
  | some n => Except.error (RenderError.missingField n)
  | none => Except.ok (renderPieces fields (templateOf kind))

/-- Removal of every binding of a placeholder name from a field mapping. -/
def removeField (n : String) (fields : Fields) : Fields :=
  fields.filter (fun f => f.1 != n)

/-- The §8 scenario field mapping, with the two list-valued fields kept
generic. -/
def scenarioFields (ps ds : List String) : Fields :=
  [("authority_designation", FieldVal.str "Inspector"),
   ("authority_name", FieldVal.str "Station House Officer"),
   ("authority_address", FieldVal.str "MG Road"),
   ("complaint_subject", FieldVal.str "Theft"),
   ("user_name", FieldVal.str "Asha Rao"),
   ("location", FieldVal.str "Pune"),
   ("respondent_name", FieldVal.str "John Smith"),
   ("issue_summary", FieldVal.str "..."),
   ("legal_insights", FieldVal.str "..."),
   ("prayers", FieldVal.list ps),
   ("documents", FieldVal.list ds),
   ("date", FieldVal.str "2024-01-01"),
   ("contact_details", FieldVal.str "9999999999")]

/-- Rendered complaint text that precedes the prayers list under the §8
scenario scalar values. -/
def scenarioPre : String :=
  "To,\nInspector\nStation House Officer\nMG Road\n\nSubject: Theft\n\nRespected Sir/Madam,\n\nI, Asha Rao, resident of Pune, wish to file a formal complaint against John Smith regarding the following matter:\n\nFACTS OF THE CASE:\n\n...\n\nLEGAL BASIS:\n\n...\n\nPRAYERS:\n\nIn light of the above, I most respectfully pray that:\n\n"

/-- Rendered complaint text between the prayers and documents lists. -/
def scenarioMid : String := "\n\nDOCUMENTS ENCLOSED:\n"

/-- Rendered complaint text after the documents list. -/
def scenarioSuf : String :=
  "\n\nI hereby declare that the information provided above is true to the best of my knowledge and belief.\n\nDate: 2024-01-01\nPlace: Pune\n\nYours faithfully,\nAsha Rao\n9999999999"

/-- Split of a character list at newline characters (structurally
recursive, so it evaluates inside the kernel). -/
def splitNl : List Char → List (List Char)
  | [] => [[]]
  | c :: cs =>
    if c = '\n' then [] :: splitNl cs
    else
      match splitNl cs with
      | [] => [[c]]
      | l :: ls => (c :: l) :: ls

/-- The concretely rendered §8 scenario complaint: prayers
`["Register FIR", "Initiate investigation"]`, documents `["ID proof"]`. -/
def scenarioRendered : String :=
  match render TemplateKind.complaint
      (scenarioFields ["Register FIR", "Initiate investigation"]
        ["ID proof"]) with
  | Except.ok doc => doc
  | Except.error _ => ""

/-- Lines of the concretely rendered §8 scenario complaint. -/
def scenarioLines : List String :=
  (splitNl scenarioRendered.data).map (fun l => ⟨l⟩)

/-! ## Saved Cases page (`frontend/src/app/saved/page.tsx`) -/

/-- `SavedCase` as declared in `page.tsx`. -/
structure SavedCase where
  id : String
  query : String
  analysis : String
  date : String
  sourcesCount : Nat
deriving DecidableEq

/-- Escape of one character inside a JSON string value, as performed by
`JSON.stringify` (quote, backslash and the common control characters). -/
def escapeJsonChar (c : Char) : String :=
  if c = '"' then "\\\""
  else if c = '\\' then "\\\\"
  else if c = '\n' then "\\n"
  else if c = '\r' then "\\r"
  else if c = '\t' then "\\t"
  else String.singleton c

/-- Escape of a whole string value for JSON serialization. -/
def escapeJson (s : String) : String :=
  String.join (s.data.map escapeJsonChar)

/-- A JSON string literal for `s`. -/
def jsonStr (s : String) : String := "\"" ++ escapeJson s ++ "\""

/-- JSON serialization of one saved case, with the field order of the
`SavedCase` interface in `page.tsx` (this is what `JSON.stringify` produces
for such an object). -/
def stringifyCase (c : SavedCase) : String :=
  "\x7b\"id\":" ++ jsonStr c.id
    ++ ",\"query\":" ++ jsonStr c.query
    ++ ",\"analysis\":" ++ jsonStr c.analysis
    ++ ",\"date\":" ++ jsonStr c.date
    ++ ",\"sourcesCount\":" ++ toString c.sourcesCount ++ "\x7d"

/-- JSON serialization of a list of saved cases (`JSON.stringify` on an
array). -/
def stringifyCases (cs : List SavedCase) : String :=
  "[" ++ String.intercalate "," (cs.map stringifyCase) ++ "]"

/-- State of the Saved Cases page relevant to the claims: the two React
state hooks plus the browser localStorage map. -/
structure PageState where
  savedCases : List SavedCase
  loading : Bool
  localStorage : String → Option String

/-- `handleDeleteCase` from `page.tsx` lines 42–49: filter out the cases
with the given id, store the filtered list in the state hook and write its
JSON serialization back to the `savedCases` localStorage key. -/
def handleDeleteCase (id : String) (st : PageState) : PageState :=
  let updatedCases := st.savedCases.filter (fun item => item.id != id)
  { st with
      savedCases := updatedCases,
      localStorage := fun k =>
        if k = "savedCases" then some (stringifyCases updatedCases)
        else st.localStorage k }

/-- Result of running the page's mount effect: the resulting page state plus
an optional client-side redirect issued through the router. -/
structure MountResult where
  state : PageState
  redirect : Option String

/-- Mount effect of `page.tsx` lines 23–40, with `JSON.parse` abstracted as
the `parse` argument (it is a platform primitive, not repository code): with
no auth token the page redirects to `/login` and changes nothing else;
otherwise it reads the `savedCases` key (defaulting to the string `"[]"`),
parses it, stores the parsed list in the state hook on success, catches the
exception on failure (only logging it, leaving the hook unchanged), and in
the `finally` block clears the loading flag. -/
def mountEffect (token : Option String)
    (parse : String → Except Unit (List SavedCase))
    (storage : String → Option String) (init : PageState) : MountResult :=
  match token with
  | none => { state := init, redirect := some "/login" }
  | some _ =>
    match parse ((storage "savedCases").getD "[]") with
    | Except.ok cases =>
        { state := { init with savedCases := cases, loading := false },
          redirect := none }
    | Except.error _ =>
        { state := { init with loading := false }, redirect := none }

/-- Concrete `JSON.parse` model used by the C10 witness: accepts exactly the
empty array. -/
def witnessParse (s : String) : Except Unit (List SavedCase) :=
  if s = "[]" then Except.ok [] else Except.error ()

/-- Concrete localStorage with no `savedCases` entry, for the C10 witness. -/
def witnessStorageA : String → Option String := fun _ => none

/-- Concrete localStorage whose `savedCases` entry is not valid JSON, for
the C10 witness. -/
def witnessStorageB : String → Option String := fun _ => some "not-json"

/-- Initial page state at mount: both hooks at their `useState` initial
values, over an arbitrary fixed localStorage. -/
def witnessInit : PageState :=
  { savedCases := [], loading := true, localStorage := fun _ => none }

/-! ## Theorems -/

set_option maxRecDepth 40000 in
/-- C1: list-valued fields reach the rendered complaint verbatim through a
newline join — for arbitrary caller-supplied `prayers` and `documents`
lists the rendered text is the scenario's literal text around `joinNl` of
exactly those lists (never sorted or deduplicated, as the repeated-entry
join `["B", "A", "A"]` shows) — and the concrete §8 scenario puts each
prayer on its own line, consecutively and in caller order, with exactly one
"Date: 2024-01-01" line. -/
theorem render_joins_lists_in_caller_order (ps ds : List String) :
    render TemplateKind.complaint (scenarioFields ps ds)
      = Except.ok ⟨scenarioPre.data
          ++ ((joinNl ps).data
            ++ (scenarioMid.data ++ ((joinNl ds).data ++ scenarioSuf.data)))⟩
    ∧ joinNl ["B", "A", "A"] = "B\nA\nA"
    ∧ (scenarioLines.count "Register FIR" = 1
        ∧ scenarioLines.count "Initiate investigation" = 1
        ∧ scenarioLines.indexOf "Register FIR" + 1
            = scenarioLines.indexOf "Initiate investigation"
        ∧ scenarioLines.count "Date: 2024-01-01" = 1) :=
  ⟨rfl, rfl, by decide⟩

/-- First-match lemma: `find?` returns the distinguished element when the
predicate holds there and nowhere else in the list. -/
theorem find?_eq_some_of_unique {α : Type} (l : List α) (p : α → Bool)
    (a : α) (ha : a ∈ l) (hpa : p a = true)
    (hother : ∀ x ∈ l, x ≠ a → p x = false) :
    l.find? p = some a := by
  induction l with
  | nil => cases ha
  | cons b bs ih =>
    rw [List.find?_cons]
    by_cases hb : b = a
    · subst hb
      rw [hpa]
    · rw [hother b (List.mem_cons_self _ _) hb]
      have ha' : a ∈ bs := by
        rcases List.mem_cons.mp ha with h | h
        · exact absurd h.symm hb
        · exact h
      exact ih ha' (fun x hx hxa => hother x (List.mem_cons_of_mem _ hx) hxa)

/-- Pointwise-equal predicates produce the same first match. -/
theorem find?_congr_pred {α : Type} (l : List α) (p q : α → Bool)
    (h : ∀ a ∈ l, p a = q a) : l.find? p = l.find? q := by
  induction l with
  | nil => rfl
  | cons b bs ih =>
    rw [List.find?_cons, List.find?_cons, h b (List.mem_cons_self _ _)]
    cases hq : q b
    · exact ih (fun x hx => h x (List.mem_cons_of_mem _ hx))
    · rfl

/-- Removing one name leaves the binding search for another untouched. -/
theorem removeField_find?_ne (fields : Fields) (n m : String) (h : n ≠ m) :
    (removeField m fields).find? (fun f => f.1 == n)
      = fields.find? (fun f => f.1 == n) := by
  induction fields with
  | nil => rfl
  | cons f fs ih =>
    by_cases hf : f.1 = m
    · have hbm : (f.1 != m) = false := by rw [hf]; exact bne_self_eq_false m
      have hmn : (f.1 == n) = false := by
        rw [hf]
        exact beq_eq_false_iff_ne.mpr (fun he => h he.symm)
      rw [removeField, List.filter_cons, hbm]
      simp only [Bool.false_eq_true, if_false]
      rw [List.find?_cons, hmn]
      exact ih
    · have hbm : (f.1 != m) = true := bne_iff_ne.mpr hf
      rw [removeField, List.filter_cons, hbm]
      simp only [if_true]
      rw [List.find?_cons, List.find?_cons]
      cases f.1 == n
      · exact ih
      · rfl

/-- After removing a name, no binding of it can be found. -/
theorem removeField_find?_self (fields : Fields) (m : String) :
    (removeField m fields).find? (fun f => f.1 == m) = none := by
  apply List.find?_eq_none.mpr
  intro x hx
  have hne := (List.mem_filter.mp hx).2
  simpa using hne

/-- A binding whose key differs is skipped by the search. -/
theorem find?_cons_ne (f : String × FieldVal) (fields : Fields)
    (n : String) (h : (f.1 == n) = false) :
    (f :: fields).find? (fun g => g.1 == n)
      = fields.find? (fun g => g.1 == n) := by
  rw [List.find?_cons, h]

/-- A binding whose key matches is found at once. -/
theorem find?_cons_self (m : String) (v : FieldVal) (fields : Fields) :
    ((m, v) :: fields).find? (fun g => g.1 == m) = some (m, v) := by
  rw [List.find?_cons]
  simp

/-- Scalar lookup is unchanged by removing a different name. -/
theorem lookupScalar_removeField_ne (fields : Fields) (n m : String)
    (h : n ≠ m) :
    lookupScalar (removeField m fields) n = lookupScalar fields n := by
  unfold lookupScalar
  rw [removeField_find?_ne fields n m h]

/-- Scalar lookup of a removed name fails. -/
theorem lookupScalar_removeField_self (fields : Fields) (m : String) :
    lookupScalar (removeField m fields) m = none := by
  unfold lookupScalar
  rw [removeField_find?_self]

/-- Scalar lookup skips a cons binding with a different key. -/
theorem lookupScalar_cons_ne (m : String) (v : FieldVal) (fields : Fields)
    (n : String) (h : n ≠ m) :
    lookupScalar ((m, v) :: fields) n = lookupScalar fields n := by
  unfold lookupScalar
  rw [find?_cons_ne _ _ _ (beq_eq_false_iff_ne.mpr (fun he => h he.symm))]

/-- List lookup is unchanged by removing a different name. -/
theorem lookupList_removeField_ne (fields : Fields) (n m : String)
    (h : n ≠ m) :
    lookupList (removeField m fields) n = lookupList fields n := by
  unfold lookupList
  rw [removeField_find?_ne fields n m h]

/-- List lookup of a removed name yields the empty list. -/
theorem lookupList_removeField_self (fields : Fields) (m : String) :
    lookupList (removeField m fields) m = [] := by
  unfold lookupList
  rw [removeField_find?_self]

/-- List lookup skips a cons binding with a different key. -/
theorem lookupList_cons_ne (m : String) (v : FieldVal) (fields : Fields)
    (n : String) (h : n ≠ m) :
    lookupList ((m, v) :: fields) n = lookupList fields n := by
  unfold lookupList
  rw [find?_cons_ne _ _ _ (beq_eq_false_iff_ne.mpr (fun he => h he.symm))]

/-- List lookup finds a cons binding with the matching key. -/
theorem lookupList_cons_self (m : String) (l : List String)
    (fields : Fields) :
    lookupList ((m, FieldVal.list l) :: fields) m = l := by
  unfold lookupList
  rw [find?_cons_self]

/-- C2: for every template kind, a field mapping providing every required
scalar renders successfully; removing any required scalar `name` from it
fails with `MissingField name` (no blank is substituted); removing a name
that is not a required scalar — in particular an optional list field —
still succeeds and renders the same document as binding that name to the
empty list, i.e. an empty section. -/
theorem render_missing_required_field (kind : TemplateKind)
    (fields : Fields) (name lname : String)
    (hcomplete : ∀ n ∈ requiredScalars (templateOf kind),
      (lookupScalar fields n).isSome = true)
    (hname : name ∈ requiredScalars (templateOf kind))
    (hlname : ∀ n ∈ requiredScalars (templateOf kind), n ≠ lname) :
    (render kind fields).isOk = true
    ∧ render kind (removeField name fields)
        = Except.error (RenderError.missingField name)
    ∧ render kind (removeField lname fields)
        = render kind
            ((lname, FieldVal.list []) :: removeField lname fields)
    ∧ (render kind (removeField lname fields)).isOk = true := by
  have hok : ∀ g : Fields,
      (∀ n ∈ requiredScalars (templateOf kind),
        lookupScalar g n = lookupScalar fields n) →
      (requiredScalars (templateOf kind)).find?
        (fun n => (lookupScalar g n).isNone) = none := by
    intro g hg
    apply List.find?_eq_none.mpr
    intro x hx
    rw [hg x hx]
    have hs := hcomplete x hx
    cases hcase : lookupScalar fields x with
    | none => rw [hcase] at hs; simp at hs
    | some s => simp [hcase]
  have hva := hok fields (fun _ _ => rfl)
  have hvb : (requiredScalars (templateOf kind)).find?
      (fun n => (lookupScalar (removeField name fields) n).isNone)
      = some name := by
    apply find?_eq_some_of_unique _ _ _ hname
    · rw [lookupScalar_removeField_self]
      rfl
    · intro x hx hxname
      rw [lookupScalar_removeField_ne fields x name hxname]
      have hs := hcomplete x hx
      cases hcase : lookupScalar fields x with
      | none => rw [hcase] at hs; simp at hs
      | some s => simp [hcase]
  have hvc := hok (removeField lname fields)
    (fun n hn => lookupScalar_removeField_ne fields n lname (hlname n hn))
  have hvd := hok ((lname, FieldVal.list []) :: removeField lname fields)
    (fun n hn => by
      rw [lookupScalar_cons_ne _ _ _ _ (hlname n hn)]
      exact lookupScalar_removeField_ne fields n lname (hlname n hn))
  have hpieces : renderPieces (removeField lname fields) (templateOf kind)
      = renderPieces ((lname, FieldVal.list []) :: removeField lname fields)
          (templateOf kind) := by
    unfold renderPieces
    refine congrArg String.mk (congrArg List.flatten
      (List.map_congr_left ?_))
    intro pc hpc
    refine congrArg String.data ?_
    cases pc with
    | lit s => rfl
    | scalar n' =>
      have hmem : n' ∈ requiredScalars (templateOf kind) :=
        List.mem_filterMap.mpr ⟨Piece.scalar n', hpc, rfl⟩
      simp only [renderPiece]
      rw [lookupScalar_cons_ne _ _ _ _ (hlname n' hmem)]
    | listF n' =>
      simp only [renderPiece]
      by_cases hn : n' = lname
      · subst hn
        rw [lookupList_removeField_self, lookupList_cons_self]
      · rw [lookupList_cons_ne _ _ _ _ hn,
          lookupList_removeField_ne fields n' lname hn]
  refine ⟨?_, ?_, ?_, ?_⟩
  · rw [render, hva]
    rfl
  · rw [render, hvb]
  · rw [render, hvc, render, hvd, hpieces]
  · rw [render, hvc]
    rfl

/-- Witness fields for C2: the complete §8 complaint mapping. -/
theorem render_missing_required_field_witness :
    (render TemplateKind.complaint
        (scenarioFields ["Register FIR", "Initiate investigation"]
          ["ID proof"])).isOk = true
    ∧ render TemplateKind.complaint
          (removeField "date"
            (scenarioFields ["Register FIR", "Initiate investigation"]
              ["ID proof"]))
        = Except.error (RenderError.missingField "date")
    ∧ render TemplateKind.complaint
          (removeField "documents"
            (scenarioFields ["Register FIR", "Initiate investigation"]
              ["ID proof"]))
        = render TemplateKind.complaint
            (("documents", FieldVal.list [])
              :: removeField "documents"
                (scenarioFields ["Register FIR", "Initiate investigation"]
                  ["ID proof"]))
    ∧ (render TemplateKind.complaint
        (removeField "documents"
          (scenarioFields ["Register FIR", "Initiate investigation"]
            ["ID proof"]))).isOk = true :=
  render_missing_required_field TemplateKind.complaint
    (scenarioFields ["Register FIR", "Initiate investigation"] ["ID proof"])
    "date" "documents" (by decide) (by decide) (by decide)

/-- Length of a string truncation. -/
theorem strTake_length (s : String) (n : Nat) :
    (strTake s n).length = min n s.length :=
  List.length_take n s.data

/-- Total length of a budget walk never exceeds the remaining budget. -/
theorem budgetWalk_totalLen_le (l : List RetrievedPassage) (rem : Nat) :
    ((budgetWalk l rem).map (fun p => p.text.length)).sum ≤ rem := by
  induction l generalizing rem with
  | nil => simp [budgetWalk]
  | cons p ps ih =>
    by_cases h : p.text.length ≤ rem
    · simp only [budgetWalk, if_pos h, List.map_cons, List.sum_cons]
      have := ih (rem - p.text.length)
      omega
    · simp only [budgetWalk, if_neg h, List.map_cons, List.map_nil,
        List.sum_cons, List.sum_nil]
      have := strTake_length p.text rem
      omega

/-- The budget walk is a prefix-consistent truncation of its input. -/
theorem budgetWalk_isTruncationOf (l : List RetrievedPassage) (rem : Nat) :
    IsTruncationOf (budgetWalk l rem) l := by
  induction l generalizing rem with
  | nil => left; rfl
  | cons p ps ih =>
    by_cases h : p.text.length ≤ rem
    · rcases ih (rem - p.text.length) with heq |
        ⟨pre, a, b, ho, ht, h1, h2, h3, h4⟩
      · left
        simp only [budgetWalk, if_pos h, List.length_cons,
          List.take_succ_cons]
        exact congrArg (List.cons p) heq
      · right
        refine ⟨p :: pre, a, b, ?_, ?_, h1, h2, h3, h4⟩
        · simp only [budgetWalk, if_pos h, ho, List.cons_append]
        · simp only [budgetWalk, if_pos h, List.length_cons,
            List.take_succ_cons, ht, List.cons_append]
    · right
      refine ⟨[], { p with text := strTake p.text rem }, p, ?_, ?_, rfl, rfl,
        rfl, List.take_prefix rem p.text.data⟩
      · simp only [budgetWalk, if_neg h, List.nil_append]
      · simp only [budgetWalk, if_neg h, List.length_singleton,
          List.take_succ_cons, List.take_zero, List.nil_append]

/-- The deduplication walk returns a sublist of its input. -/
theorem dedupeGo_sublist (l : List RetrievedPassage) :
    ∀ seen, List.Sublist (dedupeGo seen l) l := by
  induction l with
  | nil => intro seen; simp [dedupeGo]
  | cons p ps ih =>
    intro seen
    rw [dedupeGo]
    by_cases h : p.sourceId ∈ seen
    · simp only [if_pos h]
      exact List.Sublist.cons p (ih seen)
    · simp only [if_neg h]
      exact List.Sublist.cons₂ p (ih (p.sourceId :: seen))

/-- Source ids surviving the deduplication walk are pairwise distinct and
avoid everything already seen. -/
theorem dedupeGo_nodup (l : List RetrievedPassage) :
    ∀ seen, ((dedupeGo seen l).map (fun p => p.sourceId)).Nodup
      ∧ ∀ s ∈ seen, s ∉ (dedupeGo seen l).map (fun p => p.sourceId) := by
  induction l with
  | nil => intro seen; simp [dedupeGo]
  | cons p ps ih =>
    intro seen
    rw [dedupeGo]
    by_cases h : p.sourceId ∈ seen
    · simpa only [if_pos h] using ih seen
    · simp only [if_neg h, List.map_cons, List.nodup_cons]
      rcases ih (p.sourceId :: seen) with ⟨hnd, havoid⟩
      refine ⟨⟨havoid p.sourceId (List.mem_cons_self _ _), hnd⟩, ?_⟩
      intro s hs
      simp only [List.mem_cons]
      rintro (hsp | hmem)
      · exact h (hsp ▸ hs)
      · exact havoid s (List.mem_cons_of_mem _ hs) hmem

/-- After deduplication the source ids are pairwise distinct. -/
theorem dedupeBySource_nodup (l : List RetrievedPassage) :
    ((dedupeBySource l).map (fun p => p.sourceId)).Nodup :=
  (dedupeGo_nodup l []).1

/-- The deduplication walk does nothing on a list whose source ids are
pairwise distinct and disjoint from the seen set. -/
theorem dedupeGo_eq_self (l : List RetrievedPassage) :
    ∀ seen, (l.map (fun p => p.sourceId)).Nodup →
      (∀ x ∈ l.map (fun p => p.sourceId), x ∉ seen) →
      dedupeGo seen l = l := by
  induction l with
  | nil => intro seen _ _; rfl
  | cons p ps ih =>
    intro seen hnd hdisj
    simp only [List.map_cons, List.nodup_cons] at hnd
    have hp : p.sourceId ∉ seen :=
      hdisj p.sourceId (List.mem_cons_self _ _)
    rw [dedupeGo, if_neg hp, ih (p.sourceId :: seen) hnd.2]
    intro x hx
    simp only [List.mem_cons]
    rintro (hxp | hmem)
    · exact hnd.1 (hxp ▸ hx)
    · exact hdisj x (List.mem_cons_of_mem _ hx) hmem

/-- Deduplication does nothing on a list whose source ids are already
pairwise distinct. -/
theorem dedupeBySource_eq_self (l : List RetrievedPassage)
    (h : (l.map (fun p => p.sourceId)).Nodup) : dedupeBySource l = l :=
  dedupeGo_eq_self l [] h (fun _ _ => List.not_mem_nil _)

/-- Source ids of a budget walk coincide with those of the matching input
prefix (truncation changes only the text). -/
theorem budgetWalk_map_sourceId (l : List RetrievedPassage) (rem : Nat) :
    (budgetWalk l rem).map (fun p => p.sourceId)
      = (l.take (budgetWalk l rem).length).map (fun p => p.sourceId) := by
  rcases budgetWalk_isTruncationOf l rem with heq |
    ⟨pre, a, b, ho, ht, h1, _, _, _⟩
  · exact congrArg _ heq
  · rw [ht, ho]
    simp [h1]

/-- Source ids stay pairwise distinct across a budget walk. -/
theorem budgetWalk_nodup (l : List RetrievedPassage) (rem : Nat)
    (h : (l.map (fun p => p.sourceId)).Nodup) :
    ((budgetWalk l rem).map (fun p => p.sourceId)).Nodup := by
  rw [budgetWalk_map_sourceId]
  exact List.Nodup.sublist ((List.take_sublist _ _).map _) h

/-- Walking a walk's output with the same budget returns it unchanged. -/
theorem budgetWalk_idem (l : List RetrievedPassage) (rem : Nat) :
    budgetWalk (budgetWalk l rem) rem = budgetWalk l rem := by
  induction l generalizing rem with
  | nil => rfl
  | cons p ps ih =>
    by_cases h : p.text.length ≤ rem
    · simp only [budgetWalk, if_pos h]
      rw [ih]
    · simp only [budgetWalk, if_neg h]
      have hlen : (strTake p.text rem).length = rem := by
        rw [strTake_length]; omega
      simp [budgetWalk, hlen]

/-- C3: for every passage sequence and budget `B`, `assemble` keeps the
total length within `B`, returns a prefix-consistent truncation (at most the
last included passage truncated) of the input deduplicated by source id
keeping first occurrences, and is idempotent: re-assembling its own output
with the same budget yields it unchanged. -/
theorem assemble_budget_truncation_idempotent
    (passages : List RetrievedPassage) (B : Nat) :
    totalLen (assemble passages B) ≤ B
    ∧ IsTruncationOf (assemble passages B).passages (dedupeBySource passages)
    ∧ assemble (assemble passages B).passages B = assemble passages B := by
  refine ⟨budgetWalk_totalLen_le _ _, budgetWalk_isTruncationOf _ _, ?_⟩
  show assemble (budgetWalk (dedupeBySource passages) B) B = _
  unfold assemble
  rw [dedupeBySource_eq_self _ (budgetWalk_nodup _ _ (dedupeBySource_nodup _)),
    budgetWalk_idem]

/-- Empty input assembles to the empty context. -/
theorem assemble_nil (B : Nat) : assemble [] B = AssembledContext.mk [] := rfl

/-- C7: `buildPrompt` never truncates the query — the query occurs verbatim
inside the constructed prompt, a successful build returns the query and the
full prompt unchanged, and a prompt beyond the configured ceiling makes
`buildPrompt` fail with `PromptTooLarge` rather than shorten anything. -/
theorem buildPrompt_never_truncates_query (q : String)
    (ctx : AssembledContext) (prior : Option String) :
    (Except.map (fun r : GenerationRequest => (r.query, r.prompt))
        (buildPrompt q ctx prior)
      = if (promptText q ctx prior).length ≤ maxPromptSize then
          Except.ok (q, promptText q ctx prior)
        else Except.error PromptError.promptTooLarge)
    ∧ q.data <:+: (promptText q ctx prior).data := by
  constructor
  · by_cases h : (promptText q ctx prior).length ≤ maxPromptSize
    · simp [buildPrompt, h, Except.map]
    · simp [buildPrompt, h, Except.map]
  · refine ⟨(instructionsText ++ (contextSection ctx ++ questionHeader)).data,
      (continuationDirective prior).data, ?_⟩
    simp [promptText, String.data_append, List.append_assoc]

set_option maxRecDepth 4000 in
/-- C5: assembling the empty passage sequence returns an empty context for
every budget without error, and the prompt built over it omits the context
section entirely — it is just instructions, query header and query; in the
concrete scenario (budget 500) the built prompt succeeds and contains no
"Context:" header. -/
theorem assemble_empty_and_prompt_omits_context (B : Nat) (q : String) :
    (assemble [] B).passages = []
    ∧ promptText q (assemble [] B) none
        = instructionsText ++ (questionHeader ++ q)
    ∧ buildPrompt "What is an FIR?" (assemble [] 500) none
        = Except.ok ⟨"What is an FIR?", assemble [] 500, none,
            promptText "What is an FIR?" (assemble [] 500) none⟩
    ∧ containsSubstring "Context:"
        (promptText "What is an FIR?" (assemble [] 500) none) = false := by
  refine ⟨rfl, ?_, rfl, by decide⟩
  simp [promptText, contextSection, continuationDirective, assemble_nil,
    String.empty_append, String.append_empty]

/-- Exhausting the retry budget on all-transient failures reports the last
attempt's underlying cause. -/
theorem runAttempts_all_transient (oracle : Nat → AttemptResult)
    (cause : Nat → String) :
    ∀ fuel i, 0 < fuel →
      (∀ j, j < fuel →
        oracle (i + j) = AttemptResult.transientFailure (cause (i + j))) →
      runAttempts oracle i fuel
        = Except.error
            (ExecError.generationUnavailable (cause (i + fuel - 1))) := by
  intro fuel
  induction fuel with
  | zero => intro i h; exact absurd h (Nat.lt_irrefl 0)
  | succ fuel ih =>
    intro i _ hall
    have h0 := hall 0 (Nat.succ_pos _)
    rw [Nat.add_zero] at h0
    simp only [runAttempts, h0]
    by_cases hf : fuel = 0
    · subst hf
      simp
    · simp only [if_neg hf]
      have harg : ∀ j, j < fuel →
          oracle (i + 1 + j)
            = AttemptResult.transientFailure (cause (i + 1 + j)) := by
        intro j hj
        have h := hall (j + 1) (by omega)
        have he : i + (j + 1) = i + 1 + j := by omega
        rwa [he] at h
      rw [ih (i + 1) (Nat.pos_of_ne_zero hf) harg]
      have he2 : i + 1 + fuel - 1 = i + (fuel + 1) - 1 := by omega
      rw [he2]

/-- C6: when all `n` configured attempts fail transiently, generation fails
with `GenerationUnavailable` carrying the last attempt's underlying cause,
and the query state store slot is exactly what it was before the call — no
stale or partial entry is written. -/
theorem all_transient_fails_and_store_unchanged (st : StoreState)
    (oracle : Nat → AttemptResult) (cause : Nat → String) (n : Nat)
    (q : String) (ctx : AssembledContext) (hn : 0 < n)
    (hall : ∀ j, j < n →
      oracle j = AttemptResult.transientFailure (cause j)) :
    runGeneration st oracle n q ctx
      = (Except.error (ExecError.generationUnavailable (cause (n - 1))),
          st) := by
  have harg : ∀ j, j < n →
      oracle (0 + j) = AttemptResult.transientFailure (cause (0 + j)) := by
    intro j hj
    simpa using hall j hj
  have h := runAttempts_all_transient oracle cause n 0 hn harg
  rw [Nat.zero_add] at h
  simp [runGeneration, h]

/-- Witness for C6: three transient timeouts on the empty store. -/
theorem all_transient_fails_and_store_unchanged_witness :
    runGeneration initStore
        (fun _ => AttemptResult.transientFailure "timeout") 3 "q"
        (AssembledContext.mk [])
      = (Except.error (ExecError.generationUnavailable "timeout"),
          initStore) :=
  all_transient_fails_and_store_unchanged initStore
    (fun _ => AttemptResult.transientFailure "timeout") (fun _ => "timeout")
    3 "q" (AssembledContext.mk []) (by decide) (fun _ _ => rfl)

/-- C8: for a non-empty query and positive `k`, a transport error and an
empty index each make `retrieve` return the empty sequence instead of an
error, and the pipeline proceeds to a context-free generation attempt:
when generation succeeds, the answer cites no sources and is flagged as
having none. -/
theorem retrieval_degrades_to_empty_context (q : String)
    (k budget n : Nat) (m t : String) (oracle : Nat → AttemptResult)
    (st : StoreState)
    (hq : (normalizeQuery q).isEmpty = false) (_hk : 0 < k)
    (hlen : (promptText q (AssembledContext.mk []) none).length
      ≤ maxPromptSize)
    (hgen : runAttempts oracle 0 n = Except.ok t) :
    retrieve q k (IndexReply.transportError m) = Except.ok []
    ∧ retrieve q k (IndexReply.results []) = Except.ok []
    ∧ runPipeline q k budget (IndexReply.transportError m) oracle n none st
        = (Except.ok (Answer.mk t [] true), some (q, Answer.mk t [] true))
    ∧ runPipeline q k budget (IndexReply.results []) oracle n none st
        = (Except.ok (Answer.mk t [] true),
            some (q, Answer.mk t [] true)) := by
  have hr1 : retrieve q k (IndexReply.transportError m) = Except.ok [] := by
    simp [retrieve, hq]
  have hr2 : retrieve q k (IndexReply.results []) = Except.ok [] := by
    simp [retrieve, hq]
  refine ⟨hr1, hr2, ?_, ?_⟩ <;>
    simp [runPipeline, hr1, hr2, assemble_nil, buildPrompt, hlen,
      runGeneration, hgen, saveQuery]

/-- Witness for C8 at a concrete query, index replies and oracle. -/
theorem retrieval_degrades_to_empty_context_witness :
    retrieve "What is an FIR?" 5 (IndexReply.transportError "conn refused")
        = Except.ok []
    ∧ retrieve "What is an FIR?" 5 (IndexReply.results []) = Except.ok []
    ∧ runPipeline "What is an FIR?" 5 500
          (IndexReply.transportError "conn refused")
          (fun _ => AttemptResult.success "answer") 3 none initStore
        = (Except.ok (Answer.mk "answer" [] true),
            some ("What is an FIR?", Answer.mk "answer" [] true))
    ∧ runPipeline "What is an FIR?" 5 500 (IndexReply.results [])
          (fun _ => AttemptResult.success "answer") 3 none initStore
        = (Except.ok (Answer.mk "answer" [] true),
            some ("What is an FIR?", Answer.mk "answer" [] true)) :=
  retrieval_degrades_to_empty_context "What is an FIR?" 5 500 3
    "conn refused" "answer" (fun _ => AttemptResult.success "answer")
    initStore (by decide) (by decide) (by decide) rfl

/-- C4: `saveQuery` followed immediately by `loadLast` returns exactly the
saved pair; a second save of a different pair makes the first pair
unrecoverable through `loadLast`; before any save, `loadLast` returns the
explicit `none` sentinel. -/
theorem store_save_loadLast_roundtrip (st : StoreState) (q q2 : String)
    (a a2 : Answer) (hne : (q2, a2) ≠ (q, a)) :
    loadLast (saveQuery q a st) = some (q, a)
    ∧ loadLast (saveQuery q2 a2 (saveQuery q a st)) = some (q2, a2)
    ∧ loadLast (saveQuery q2 a2 (saveQuery q a st)) ≠ some (q, a)
    ∧ loadLast initStore = none :=
  ⟨rfl, rfl, fun h => hne (Option.some.inj h), rfl⟩

/-- Witness for C4 at concrete pairs. -/
theorem store_save_loadLast_roundtrip_witness :
    loadLast (saveQuery "q1" ⟨"a1", [], true⟩ initStore)
        = some ("q1", ⟨"a1", [], true⟩)
    ∧ loadLast (saveQuery "q2" ⟨"a2", ["s"], false⟩
          (saveQuery "q1" ⟨"a1", [], true⟩ initStore))
        = some ("q2", ⟨"a2", ["s"], false⟩)
    ∧ loadLast (saveQuery "q2" ⟨"a2", ["s"], false⟩
          (saveQuery "q1" ⟨"a1", [], true⟩ initStore))
        ≠ some ("q1", ⟨"a1", [], true⟩)
    ∧ loadLast initStore = none :=
  store_save_loadLast_roundtrip initStore "q1" "q2"
    ⟨"a1", [], true⟩ ⟨"a2", ["s"], false⟩ (by decide)

/-- C9: `handleDeleteCase` removes exactly the saved cases whose `id`
matches the given id, keeps every other entry in its original relative
order (the resulting list is the filtered list, a sublist of the original),
and overwrites the `savedCases` localStorage key with the JSON serialization
of exactly that remaining list. -/
theorem handleDeleteCase_removes_exactly (id : String) (st : PageState) :
    (handleDeleteCase id st).savedCases
        = st.savedCases.filter (fun item => item.id != id)
    ∧ List.Sublist (handleDeleteCase id st).savedCases st.savedCases
    ∧ (∀ c, c ∈ (handleDeleteCase id st).savedCases ↔
        (c ∈ st.savedCases ∧ c.id ≠ id))
    ∧ (handleDeleteCase id st).localStorage "savedCases"
        = some (stringifyCases ((handleDeleteCase id st).savedCases))
    ∧ (handleDeleteCase id st).loading = st.loading := by
  refine ⟨rfl, List.filter_sublist _, ?_, by simp [handleDeleteCase], rfl⟩
  intro c
  simp [handleDeleteCase, List.mem_filter]

/-- C10: on mount with a valid auth token, an absent `savedCases`
localStorage entry yields the empty saved-cases list; a stored value that is
not valid JSON has its exception caught, the saved-cases hook keeps its
initial empty value and no redirect is issued; in both situations loading is
set to false afterwards. -/
theorem mountEffect_handles_missing_and_invalid (tok : String)
    (parse : String → Except Unit (List SavedCase))
    (storageA storageB : String → Option String) (raw : String)
    (init : PageState)
    (hparse : parse "[]" = Except.ok [])
    (hinit : init.savedCases = [])
    (hA : storageA "savedCases" = none)
    (hB : storageB "savedCases" = some raw)
    (hraw : parse raw = Except.error ()) :
    (mountEffect (some tok) parse storageA init).state.savedCases = []
    ∧ (mountEffect (some tok) parse storageA init).state.loading = false
    ∧ (mountEffect (some tok) parse storageB init).state.savedCases = []
    ∧ (mountEffect (some tok) parse storageB init).state.loading = false
    ∧ (mountEffect (some tok) parse storageB init).redirect = none := by
  simp [mountEffect, hA, hB, hparse, hraw, hinit]

/-- Witness for C10 at a concrete parser, storages and initial state. -/
theorem mountEffect_handles_missing_and_invalid_witness :
    (mountEffect (some "t") witnessParse witnessStorageA
        witnessInit).state.savedCases = []
    ∧ (mountEffect (some "t") witnessParse witnessStorageA
        witnessInit).state.loading = false
    ∧ (mountEffect (some "t") witnessParse witnessStorageB
        witnessInit).state.savedCases = []
    ∧ (mountEffect (some "t") witnessParse witnessStorageB
        witnessInit).state.loading = false
    ∧ (mountEffect (some "t") witnessParse witnessStorageB
        witnessInit).redirect = none :=
  mountEffect_handles_missing_and_invalid "t" witnessParse witnessStorageA
    witnessStorageB "not-json" witnessInit rfl rfl rfl rfl rfl
